import Mathlib

/-!
Shallow embedding of the validator/scorer suite of
`src/app/src/jp_reading_questions/score.py`.

Python values that can flow through the scorers are modelled by `PyVal`
(JSON-like data: strings, integers, booleans, None, lists, dicts with
string keys — the only dict keys the scorers ever touch).  Equality is
structural; the Python corner `1 == True` is not modelled, and no scorer
branch depends on it for the string-valued fields the code inspects.
Floating-point literals are outside the model (no scorer branches on
numbers).

A Python computation that can raise an uncaught exception is modelled by
`PyResult`: `.ok` is a normal return, `.exn msg` an uncaught exception
carrying (a rendering of) the Python error message.
-/

inductive PyVal where
  | str (s : String)
  | int (n : Int)
  | bool (b : Bool)
  | none
  | list (xs : List PyVal)
  | dict (entries : List (String × PyVal))
  deriving Repr

mutual

/-- Structural equality on `PyVal`, modelling Python `==` on the data the
scorers compare (the cross-type corner `1 == True` is not modelled). -/
def pyEq : PyVal → PyVal → Bool
  | .str a, .str b => a == b
  | .int a, .int b => a == b
  | .bool a, .bool b => a == b
  | .none, .none => true
  | .list a, .list b => pyEqList a b
  | .dict a, .dict b => pyEqDict a b
  | _, _ => false

def pyEqList : List PyVal → List PyVal → Bool
  | [], [] => true
  | x :: xs, y :: ys => pyEq x y && pyEqList xs ys
  | _, _ => false

def pyEqDict : List (String × PyVal) → List (String × PyVal) → Bool
  | [], [] => true
  | (k, v) :: xs, (l, w) :: ys => k == l && pyEq v w && pyEqDict xs ys
  | _, _ => false

end

instance : BEq PyVal := ⟨pyEq⟩

inductive PyResult (α : Type) where
  | ok (a : α)
  | exn (msg : String)
  deriving DecidableEq, Repr

def PyResult.bind {α β : Type} : PyResult α → (α → PyResult β) → PyResult β
  | .ok a, f => f a
  | .exn m, _ => .exn m

instance : Monad PyResult where
  pure := PyResult.ok
  bind := PyResult.bind

/-- Feedback(value=..., rationale=...): the verdict object every scorer returns.
`value` is the string "yes" or "no" in the source. -/
structure Feedback where
  value : String
  rationale : String
  deriving DecidableEq, Repr

/-- First-match association-list lookup, modelling `key in d` / `d[key]` /
`d.get(key)` on a Python dict with string keys. -/
def pyDictGet? (d : List (String × PyVal)) (k : String) : Option PyVal :=
  match d with
  | [] => Option.none
  | (k2, v) :: rest => if k2 = k then some v else pyDictGet? rest k

/-- `d.get(key, default)`. -/
def pyGet (d : List (String × PyVal)) (k : String) (dflt : PyVal) : PyVal :=
  (pyDictGet? d k).getD dflt

/-- Whether a value is hashable in Python (lists and dicts are not). -/
def pyHashable : PyVal → Bool
  | .list _ => false
  | .dict _ => false
  | _ => true

/-- Python type of a value, quoted as in error messages. -/
def pyTypeQuoted : PyVal → String
  | .str _ => "\x27str\x27"
  | .int _ => "\x27int\x27"
  | .bool _ => "\x27bool\x27"
  | .none => "\x27NoneType\x27"
  | .list _ => "\x27list\x27"
  | .dict _ => "\x27dict\x27"

/-- `type(v)` as it prints inside an f-string: `<class 'list'>` etc. -/
def pyTypeFull (v : PyVal) : String :=
  "<class " ++ pyTypeQuoted v ++ ">"

/-- `'sep'.join(xs)` on a list of strings (also the image of CPython
`str.join` on each shape we ever join). -/
def joinSep (sep : String) : List String → String
  | [] => ""
  | [x] => x
  | x :: xs => x ++ sep ++ joinSep sep xs

mutual

/-- `repr(v)` for the values that can appear inside rationales.  Strings are
rendered between plain single quotes (escaping inside the string is not
modelled; no reachable rationale needs it). -/
def pyRepr : PyVal → String
  | .str s => "\x27" ++ s ++ "\x27"
  | .int n => toString n
  | .bool b => if b then "True" else "False"
  | .none => "None"
  | .list xs => "[" ++ pyReprList xs ++ "]"
  | .dict d => "\x7b" ++ pyReprDict d ++ "\x7d"

def pyReprList : List PyVal → String
  | [] => ""
  | [x] => pyRepr x
  | x :: xs => pyRepr x ++ ", " ++ pyReprList xs

def pyReprDict : List (String × PyVal) → String
  | [] => ""
  | [(k, v)] => "\x27" ++ k ++ "\x27: " ++ pyRepr v
  | (k, v) :: rest => "\x27" ++ k ++ "\x27: " ++ pyRepr v ++ ", " ++ pyReprDict rest

end

/-- `str(v)`, as used by f-string interpolation. -/
def pyStr : PyVal → String
  | .str s => s
  | v => pyRepr v

/-- Python repr of a list of strings, as printed by `f"{missing}"`. -/
def pyStrListRepr (xs : List String) : String :=
  "[" ++ joinSep ", " (xs.map (fun s => "\x27" ++ s ++ "\x27")) ++ "]"

/-- Python repr of a set held as a dedup list in insertion order
(CPython's actual set ordering is hash-dependent; rationales in the
theorems below only rely on this model's deterministic rendering). -/
def pySetRepr (xs : List PyVal) : String :=
  match xs with
  | [] => "set()"
  | _ => "\x7b" ++ joinSep ", " (xs.map pyRepr) ++ "\x7d"

/-- Adding one element to a Python set (modelled as a dedup list in first
insertion order): raises TypeError on unhashable values. -/
def pySetInsert (acc : List PyVal) (v : PyVal) : PyResult (List PyVal) :=
  if pyHashable v then
    .ok (if acc.contains v then acc else acc ++ [v])
  else
    .exn ("unhashable type: " ++ pyTypeQuoted v)

/-- `set(xs)` for a Python list `xs`. -/
def pyListToSetAux (acc : List PyVal) : List PyVal → PyResult (List PyVal)
  | [] => .ok acc
  | x :: xs => do
    let acc2 ← pySetInsert acc x
    pyListToSetAux acc2 xs

def pyListToSet (xs : List PyVal) : PyResult (List PyVal) :=
  pyListToSetAux [] xs

/-- First-occurrence deduplication (used to model `set(duplicates)` over
already-hashable elements). -/
def dedupFirstAux (seen : List PyVal) : List PyVal → List PyVal
  | [] => []
  | x :: xs =>
    if seen.contains x then dedupFirstAux seen xs
    else x :: dedupFirstAux (seen ++ [x]) xs

def dedupFirst (xs : List PyVal) : List PyVal :=
  dedupFirstAux [] xs

/-- Substring machinery used to state "the rationale mentions ...". -/
def prefixOfCL : List Char → List Char → Bool
  | [], _ => true
  | _ :: _, [] => false
  | a :: as, b :: bs => a = b && prefixOfCL as bs

def segOfCL (x : List Char) : List Char → Bool
  | [] => prefixOfCL x []
  | c :: cs => prefixOfCL x (c :: cs) || segOfCL x cs

/-- `needle` occurs as a contiguous substring of `hay`. -/
def strMentions (needle hay : String) : Bool :=
  segOfCL needle.data hay.data

/-!
A model of `json.loads` sufficient for the scorers: a recursive-descent
JSON reader over the character list, with a fuel argument (the input
length plus one is always enough fuel at the nesting depths the theorems
evaluate).  Supported: objects, arrays, strings with the standard escape
sequences, integers, `true`/`false`/`null`.  Fractional/exponent number
literals are rejected by the model (no scorer inspects numeric fields, and
no theorem below feeds them).  Parse failures are reported with a short
message in the spirit of the CPython messages ("Expecting value", "Extra
data"); the scorers only embed the message into a rationale.
-/

def jIsWs (c : Char) : Bool :=
  c = ' ' || c = '\t' || c = '\n' || c = '\r'

def jskipWs : List Char → List Char
  | [] => []
  | c :: cs => if jIsWs c then jskipWs cs else c :: cs

def jhexVal (c : Char) : Option Nat :=
  if '0' ≤ c ∧ c ≤ '9' then some (c.toNat - '0'.toNat)
  else if 'a' ≤ c ∧ c ≤ 'f' then some (c.toNat - 'a'.toNat + 10)
  else if 'A' ≤ c ∧ c ≤ 'F' then some (c.toNat - 'A'.toNat + 10)
  else Option.none

def jescChar (c : Char) : Option Char :=
  if c = '"' then some '"'
  else if c = '\\' then some '\\'
  else if c = '/' then some '/'
  else if c = 'b' then some (Char.ofNat 8)
  else if c = 'f' then some (Char.ofNat 12)
  else if c = 'n' then some '\n'
  else if c = 'r' then some '\r'
  else if c = 't' then some '\t'
  else Option.none

/-- Scan a JSON string body (the opening quote already consumed), fuel-bounded. -/
def jstringAux : Nat → List Char → List Char → Option (String × List Char)
  | 0, _, _ => Option.none
  | _ + 1, _, [] => Option.none
  | fuel + 1, acc, c :: cs =>
    if c = '"' then some (String.mk acc.reverse, cs)
    else if c = '\\' then
      match cs with
      | [] => Option.none
      | e :: cs2 =>
        if e = 'u' then
          match cs2 with
          | h1 :: h2 :: h3 :: h4 :: cs3 =>
            match jhexVal h1, jhexVal h2, jhexVal h3, jhexVal h4 with
            | some a, some b, some c2, some d2 =>
              jstringAux fuel (Char.ofNat (((a * 16 + b) * 16 + c2) * 16 + d2) :: acc) cs3
            | _, _, _, _ => Option.none
          | _ => Option.none
        else
          match jescChar e with
          | some ch => jstringAux fuel (ch :: acc) cs2
          | Option.none => Option.none
    else jstringAux fuel (c :: acc) cs

def jtakeDigits : List Char → List Char × List Char
  | [] => ([], [])
  | c :: cs =>
    if c.isDigit then
      let p := jtakeDigits cs
      (c :: p.1, p.2)
    else ([], c :: cs)

def jdigitsToNatAux (acc : Nat) : List Char → Nat
  | [] => acc
  | c :: cs => jdigitsToNatAux (acc * 10 + (c.toNat - '0'.toNat)) cs

def jdigitsToNat : List Char → Nat
  | [] => 0
  | c :: cs => jdigitsToNatAux (c.toNat - '0'.toNat) cs

/-- Consume the literal tail `lit` (e.g. `rue` after `t`). -/
def jstripLit : List Char → List Char → Option (List Char)
  | [], input => some input
  | _ :: _, [] => Option.none
  | l :: ls, c :: cs => if l = c then jstripLit ls cs else Option.none

/-- Parse an integer literal starting at `c :: cs`; rejects fraction/exponent. -/
def jparseNum (c : Char) (cs : List Char) : Option (PyVal × List Char) :=
  if c = '-' then
    match jtakeDigits cs with
    | ([], _) => Option.none
    | (ds, rest) =>
      match rest with
      | r :: _ =>
        if r = '.' || r = 'e' || r = 'E' then Option.none
        else some (.int (-(jdigitsToNat ds : Int)), rest)
      | [] => some (.int (-(jdigitsToNat ds : Int)), rest)
  else
    match jtakeDigits (c :: cs) with
    | ([], _) => Option.none
    | (ds, rest) =>
      match rest with
      | r :: _ =>
        if r = '.' || r = 'e' || r = 'E' then Option.none
        else some (.int (jdigitsToNat ds), rest)
      | [] => some (.int (jdigitsToNat ds), rest)

mutual

def jparseVal : Nat → List Char → Option (PyVal × List Char)
  | 0, _ => Option.none
  | fuel + 1, input =>
    match jskipWs input with
    | [] => Option.none
    | c :: cs =>
      if c = '"' then
        match jstringAux (cs.length + 1) [] cs with
        | some p => some (.str p.1, p.2)
        | Option.none => Option.none
      else if c = '[' then
        match jskipWs cs with
        | ']' :: rest => some (.list [], rest)
        | cs2 =>
          match jparseArrItems fuel cs2 with
          | some p => some (.list p.1, p.2)
          | Option.none => Option.none
      else if c = '\x7b' then
        match jskipWs cs with
        | '\x7d' :: rest => some (.dict [], rest)
        | cs2 =>
          match jparseObjItems fuel cs2 with
          | some p => some (.dict p.1, p.2)
          | Option.none => Option.none
      else if c = 't' then
        match jstripLit ['r', 'u', 'e'] cs with
        | some rest => some (.bool true, rest)
        | Option.none => Option.none
      else if c = 'f' then
        match jstripLit ['a', 'l', 's', 'e'] cs with
        | some rest => some (.bool false, rest)
        | Option.none => Option.none
      else if c = 'n' then
        match jstripLit ['u', 'l', 'l'] cs with
        | some rest => some (.none, rest)
        | Option.none => Option.none
      else if c = '-' || c.isDigit then jparseNum c cs
      else Option.none

def jparseArrItems : Nat → List Char → Option (List PyVal × List Char)
  | 0, _ => Option.none
  | fuel + 1, input => do
    let (v, rest) ← jparseVal fuel input
    match jskipWs rest with
    | ',' :: rest2 => do
      let (vs, r) ← jparseArrItems fuel rest2
      some (v :: vs, r)
    | ']' :: rest2 => some ([v], rest2)
    | _ => Option.none

def jparseObjItems : Nat → List Char → Option (List (String × PyVal) × List Char)
  | 0, _ => Option.none
  | fuel + 1, input =>
    match jskipWs input with
    | '"' :: cs => do
      let (k, rest) ← jstringAux (cs.length + 1) [] cs
      match jskipWs rest with
      | ':' :: rest2 => do
        let (v, rest3) ← jparseVal fuel rest2
        match jskipWs rest3 with
        | ',' :: rest4 => do
          let (kvs, r) ← jparseObjItems fuel rest4
          some ((k, v) :: kvs, r)
        | '\x7d' :: rest4 => some ([(k, v)], rest4)
        | _ => Option.none
      | _ => Option.none
    | _ => Option.none

end

/-- Outcome of `json.loads` on a text: parsed value, or a caught
`json.JSONDecodeError` whose message lands in the rationale. -/
def json_loads (s : String) : PyResult PyVal :=
  match jparseVal (s.data.length + 1) s.data with
  | some (v, rest) =>
    if (jskipWs rest).isEmpty then .ok v else .exn "Extra data"
  | Option.none => .exn "Expecting value"

/-!
The shared normalization prologue of every scorer in `score.py`:

    try:
        if isinstance(outputs, dict): output_json = outputs
        elif isinstance(outputs, str): output_json = json.loads(outputs)
        else: raise ValueError(f"Unexpected type: {type(outputs)}")
    except Exception as e:
        return Feedback(value="no", rationale=f"Output is not valid JSON: {e}")

`normalizeOutputs` returns `.exn msg` exactly for the exceptions this
`try` block catches; the scorers turn that into the fail Feedback.
-/

def normalizeOutputs (outputs : PyVal) : PyResult PyVal :=
  match outputs with
  | .dict _ => .ok outputs
  | .str s => json_loads s
  | v => .exn ("Unexpected type: " ++ pyTypeFull v)

/-- The Python `in` operator with a string on the left
(`"questions" in output_json`): key membership for dicts, element
membership for lists, substring for strings, TypeError otherwise. -/
def pyIn (k : String) : PyVal → PyResult Bool
  | .dict d => .ok (pyDictGet? d k).isSome
  | .list xs => .ok (xs.contains (.str k))
  | .str s => .ok (strMentions k s)
  | v => .exn ("argument of type " ++ pyTypeQuoted v ++ " is not iterable")

/-- Subscripting by a string key (`output_json["questions"]`). -/
def pySubscr : PyVal → String → PyResult PyVal
  | .dict d, k =>
    match pyDictGet? d k with
    | some v => .ok v
    | Option.none => .exn ("KeyError: " ++ "\x27" ++ k ++ "\x27")
  | .list _, _ => .exn "list indices must be integers or slices, not str"
  | .str _, _ => .exn "string indices must be integers"
  | v, _ => .exn (pyTypeQuoted v ++ " object is not subscriptable")

/-- The guard shared by `has_all_categories`, `options_are_unique`,
`answer_is_valid` and `has_sufficient_questions`:

    if "questions" not in output_json or not isinstance(output_json["questions"], list)

Returns `some qs` when the guard falls through with the question list,
`none` when the scorer takes the "No questions found in output." branch. -/
def checkQuestions (oj : PyVal) : PyResult (Option (List PyVal)) := do
  let b ← pyIn "questions" oj
  if b then
    let v ← pySubscr oj "questions"
    match v with
    | .list qs => pure (some qs)
    | _ => pure Option.none
  else
    pure Option.none

def noQuestionsFb : Feedback := ⟨"no", "No questions found in output."⟩

def notValidJsonFb (e : String) : Feedback :=
  ⟨"no", "Output is not valid JSON: " ++ e⟩

/-- `required_fields = ["category", "question", "options", "answer"]`. -/
def requiredFields : List String := ["category", "question", "options", "answer"]

/-- The per-question loop of `json_format_correct` (lines 63-76): returns the
first failing Feedback, or `none` when every question is a dict holding all
required fields.  Field *types* are never inspected. -/
def questionFieldsCheck : Nat → List PyVal → Option Feedback
  | _, [] => Option.none
  | i, q :: rest =>
    match q with
    | .dict d =>
      let missing := requiredFields.filter (fun f => (pyDictGet? d f).isNone)
      if missing.isEmpty then questionFieldsCheck (i + 1) rest
      else some ⟨"no", "Question " ++ toString i ++ " is missing fields: " ++ pyStrListRepr missing⟩
    | _ => some ⟨"no", "Question " ++ toString i ++ " is not a dictionary."⟩

/-- `json_format_correct` (score.py lines 27-81), the `schema_valid` scorer. -/
def json_format_correct (outputs : PyVal) : PyResult Feedback :=
  match normalizeOutputs outputs with
  | .exn e => .ok (notValidJsonFb e)
  | .ok oj =>
    match oj with
    | .dict d =>
      match pyDictGet? d "questions" with
      | Option.none =>
        .ok ⟨"no", "Output JSON does not contain the required \x27questions\x27 key."⟩
      | some qv =>
        match qv with
        | .list qs =>
          match questionFieldsCheck 0 qs with
          | some fb => .ok fb
          | Option.none =>
            .ok ⟨"yes", "Output is valid JSON with " ++ toString qs.length ++ " properly formatted questions."⟩
        | _ => .ok ⟨"no", "\x27questions\x27 must be a list."⟩
    | _ =>
      .ok ⟨"no", "Output JSON does not contain the required \x27questions\x27 key."⟩

/-- The category-set collection loop of `has_all_categories` (lines 110-113):

    categories = set()
    for q in output_json["questions"]:
        if isinstance(q, dict) and "category" in q:
            categories.add(q["category"])
-/
def collectCategories (acc : List PyVal) : List PyVal → PyResult (List PyVal)
  | [] => .ok acc
  | q :: rest =>
    match q with
    | .dict d =>
      match pyDictGet? d "category" with
      | some c => do
        let acc2 ← pySetInsert acc c
        collectCategories acc2 rest
      | Option.none => collectCategories acc rest
    | _ => collectCategories acc rest

/-- `cats.contains v` spelled through `pyEq` (Python set membership over the
collected category values, which are always hashable). -/
def listHas (l : List PyVal) (v : PyVal) : Bool :=
  l.contains v

def hasFactB (cats : List PyVal) : Bool := listHas cats (.str "事実")

def hasMessageB (cats : List PyVal) : Bool :=
  listHas cats (.str "メインポイント") || listHas cats (.str "暗示されたメッセージ")

def hasGrammarB (cats : List PyVal) : Bool :=
  listHas cats (.str "文法") || listHas cats (.str "表現") || listHas cats (.str "文法や表現")

def missingCategories (cats : List PyVal) : List String :=
  (if hasFactB cats then [] else ["事実"]) ++
  (if hasMessageB cats then [] else ["メインポイント/暗示されたメッセージ"]) ++
  (if hasGrammarB cats then [] else ["文法や表現"])

/-- `has_all_categories` (score.py lines 83-137), the `category_coverage`
scorer. -/
def has_all_categories (outputs : PyVal) : PyResult Feedback :=
  match normalizeOutputs outputs with
  | .exn e => .ok (notValidJsonFb e)
  | .ok oj => do
    match ← checkQuestions oj with
    | Option.none => pure noQuestionsFb
    | some qs => do
      let cats ← collectCategories [] qs
      if hasFactB cats && hasMessageB cats && hasGrammarB cats then
        pure ⟨"yes", "Output contains all required category types. Found categories: " ++ pySetRepr cats⟩
      else
        pure ⟨"no", "Missing categories: " ++ pyStrListRepr (missingCategories cats) ++ ". Found categories: " ++ pySetRepr cats⟩

/-- One iteration of the `options_are_unique` loop body (lines 164-176):
`none` when the question is skipped or clean, `some issue` when an issue
string is appended, `.exn` when `set(options)` raises on an unhashable
option value. -/
def optionIssueStep (i : Nat) (q : PyVal) : PyResult (Option String)  :=
  match q with
  | .dict d =>
    match pyDictGet? d "options" with
    | Option.none => .ok Option.none
    | some opts =>
      match opts with
      | .list os => do
        let s ← pyListToSet os
        if os.length ≠ s.length then
          let duplicates := os.filter (fun o => os.count o > 1)
          pure (some (("Question " ++ toString i ++ ":") ++ " has duplicate options: " ++ pySetRepr (dedupFirst duplicates)))
        else
          pure Option.none
      | _ => .ok (some (("Question " ++ toString i ++ ":") ++ " options is not a list"))
  | _ => .ok Option.none

/-- The full `issues` list built by `options_are_unique` (lines 163-176). -/
def optionsIssues : Nat → List PyVal → PyResult (List String)
  | _, [] => .ok []
  | i, q :: rest => do
    let iss ← optionIssueStep i q
    let tail ← optionsIssues (i + 1) rest
    match iss with
    | some s => pure (s :: tail)
    | Option.none => pure tail

/-- `options_are_unique` (score.py lines 139-187), the `options_unique`
scorer. -/
def options_are_unique (outputs : PyVal) : PyResult Feedback :=
  match normalizeOutputs outputs with
  | .exn e => .ok (notValidJsonFb e)
  | .ok oj => do
    match ← checkQuestions oj with
    | Option.none => pure noQuestionsFb
    | some qs => do
      let issues ← optionsIssues 0 qs
      if issues.isEmpty then
        pure ⟨"yes", "All " ++ toString qs.length ++ " questions have unique options."⟩
      else
        pure ⟨"no", "Found issues with option uniqueness: " ++ joinSep "; " issues⟩

def validAnswer (v : PyVal) : Bool :=
  pyEq v (.str "A") || pyEq v (.str "B") || pyEq v (.str "C") || pyEq v (.str "D")

/-- `ord(answer) - ord('A')`; only reached for answers in `{A, B, C, D}`. -/
def letterIndex : PyVal → Nat
  | .str s =>
    match s with
    | "A" => 0
    | "B" => 1
    | "C" => 2
    | "D" => 3
    | _ => 0
  | _ => 0

/-- One iteration of the `answer_is_valid` loop body (lines 217-233):
`some issue` when an issue string is appended, `.exn` when the membership
test `answer not in valid_answers` hashes an unhashable answer value. -/
def answerIssueStep (i : Nat) (q : PyVal) : PyResult (Option String) :=
  match q with
  | .dict d =>
    if ¬ pyHashable (pyGet d "answer" (.str "")) then
      .exn ("unhashable type: " ++ pyTypeQuoted (pyGet d "answer" (.str "")))
    else if ¬ validAnswer (pyGet d "answer" (.str "")) then
      .ok (some (("Question " ++ toString i ++ ":") ++ " answer \x27" ++ pyStr (pyGet d "answer" (.str "")) ++ "\x27 is not A, B, C, or D"))
    else
      match pyGet d "options" (.list []) with
      | .list os =>
        if os.length ≤ letterIndex (pyGet d "answer" (.str "")) then
          .ok (some (("Question " ++ toString i ++ ":") ++ " answer \x27" ++ pyStr (pyGet d "answer" (.str "")) ++ "\x27 references option " ++ toString (letterIndex (pyGet d "answer" (.str "")) + 1) ++ " but only " ++ toString os.length ++ " options exist"))
        else .ok Option.none
      | _ => .ok Option.none
  | _ => .ok Option.none

/-- The full `issues` list built by `answer_is_valid` (lines 214-233). -/
def answerIssues : Nat → List PyVal → PyResult (List String)
  | _, [] => .ok []
  | i, q :: rest => do
    let iss ← answerIssueStep i q
    let tail ← answerIssues (i + 1) rest
    match iss with
    | some s => pure (s :: tail)
    | Option.none => pure tail

/-- `answer_is_valid` (score.py lines 189-244), the `answer_valid` scorer. -/
def answer_is_valid (outputs : PyVal) : PyResult Feedback :=
  match normalizeOutputs outputs with
  | .exn e => .ok (notValidJsonFb e)
  | .ok oj => do
    match ← checkQuestions oj with
    | Option.none => pure noQuestionsFb
    | some qs => do
      let issues ← answerIssues 0 qs
      if issues.isEmpty then
        pure ⟨"yes", "All " ++ toString qs.length ++ " questions have valid answers."⟩
      else
        pure ⟨"no", "Found invalid answers: " ++ joinSep "; " issues⟩

/-- The literal `3` of `if num_questions < 3` (score.py line 274). -/
def sufficientThreshold : Nat := 3

/-- `has_sufficient_questions` (score.py lines 246-283), the
`sufficient_count` scorer. -/
def has_sufficient_questions (outputs : PyVal) : PyResult Feedback :=
  match normalizeOutputs outputs with
  | .exn e => .ok (notValidJsonFb e)
  | .ok oj => do
    match ← checkQuestions oj with
    | Option.none => pure noQuestionsFb
    | some qs =>
      if qs.length < sufficientThreshold then
        pure ⟨"no", "Only " ++ toString qs.length ++ " questions generated. Expected at least 3 for adequate coverage."⟩
      else
        pure ⟨"yes", "Generated " ++ toString qs.length ++ " questions, which provides good coverage."⟩

/-!
The three LLM-backed semantic scorers (score.py lines 290-469, defined when
`ENABLE_LLM_SCORERS` is set).  The external pieces are abstracted as
parameters: `fmt` stands for `load_scorer_prompt(...).format(...)` (prompt
file contents and `str.format` are external data / library code), and
`judge` stands for `ChatOpenAI(...).with_structured_output(ScorerJudgment)
.invoke(prompt)` — `.ok` a parsed structured verdict, `.exn` any exception
the `try` around `invoke` catches (network error, timeout, unparseable
response).
-/

/-- Structured output for LLM-based scorers (`ScorerJudgment`). -/
structure ScorerJudgment where
  passed : Bool
  reason : String
  deriving DecidableEq, Repr

/-- Python truthiness (`if not jp_text`). -/
def pyTruthy : PyVal → Bool
  | .str s => !s.isEmpty
  | .int n => n != 0
  | .bool b => b
  | .none => false
  | .list xs => !xs.isEmpty
  | .dict d => !d.isEmpty

/-- `"\n".join(v)` where `v` is whatever `q.get("options", [])` returned:
joins a list of strings, the characters of a string, or the keys of a dict;
raises TypeError on non-string sequence items or non-iterables. -/
def pyJoinVal (sep : String) : PyVal → PyResult String
  | .list xs =>
    if xs.all (fun x => match x with | .str _ => true | _ => false) then
      .ok (joinSep sep (xs.map pyStr))
    else .exn "sequence item: expected str instance"
  | .str s => .ok (joinSep sep (s.data.map (fun c => String.mk [c])))
  | .dict d => .ok (joinSep sep (d.map (fun kv => kv.1)))
  | v => .exn ("can only join an iterable, not " ++ pyTypeQuoted v)

/-- The `questions_summary` loop of `question_text_relevance`
(lines 326-329). -/
def questionsSummary : Nat → List PyVal → List String
  | _, [] => []
  | i, q :: rest =>
    match q with
    | .dict d =>
      match pyDictGet? d "question" with
      | some qv => (toString (i + 1) ++ ". " ++ pyStr qv) :: questionsSummary (i + 1) rest
      | Option.none => questionsSummary (i + 1) rest
    | _ => questionsSummary (i + 1) rest

/-- Everything `question_text_relevance` does before `llm.invoke`:
`.inl fb` is an early-return verdict, `.inr prompt` proceeds to the judge. -/
def relevancePre (fmt : String → String → String) (outputs : PyVal)
    (inputs : List (String × PyVal)) : PyResult (Sum Feedback String) :=
  match normalizeOutputs outputs with
  | .exn e => .ok (.inl (notValidJsonFb e))
  | .ok oj => do
    match ← checkQuestions oj with
    | Option.none => pure (.inl noQuestionsFb)
    | some qs =>
      let jpText := pyGet inputs "jp_text" (.str "")
      if ¬ pyTruthy jpText then
        pure (.inl ⟨"no", "No input text provided for relevance check."⟩)
      else
        pure (.inr (fmt (pyStr jpText) (joinSep "\n" (questionsSummary 0 qs))))

/-- `question_text_relevance` (score.py lines 291-350). -/
def question_text_relevance (fmt : String → String → String)
    (judge : String → PyResult ScorerJudgment)
    (outputs : PyVal) (inputs : List (String × PyVal)) : PyResult Feedback :=
  match relevancePre fmt outputs inputs with
  | .exn e => .exn e
  | .ok (.inl fb) => .ok fb
  | .ok (.inr prompt) =>
    match judge prompt with
    | .ok r => .ok ⟨if r.passed then "yes" else "no", "Question relevance: " ++ r.reason⟩
    | .exn e => .ok ⟨"no", "Error during LLM evaluation: " ++ e⟩

/-- The `questions_with_options` loop of `option_quality` (lines 380-384);
`"\n".join(q.get("options", []))` can raise on non-string option items. -/
def optionQualityItems : Nat → List PyVal → PyResult (List String)
  | _, [] => .ok []
  | i, q :: rest =>
    match q with
    | .dict d =>
      if (pyDictGet? d "question").isSome ∧ (pyDictGet? d "options").isSome then do
        let optionsStr ← pyJoinVal "\n" (pyGet d "options" (.list []))
        let tail ← optionQualityItems (i + 1) rest
        pure (("問題" ++ toString (i + 1) ++ ": " ++ pyStr (pyGet d "question" (.str "")) ++ "\n選択肢:\n" ++ optionsStr) :: tail)
      else optionQualityItems (i + 1) rest
    | _ => optionQualityItems (i + 1) rest

/-- Everything `option_quality` does before `llm.invoke`. -/
def optionQualityPre (fmt : String → String) (outputs : PyVal) :
    PyResult (Sum Feedback String) :=
  match normalizeOutputs outputs with
  | .exn e => .ok (.inl (notValidJsonFb e))
  | .ok oj => do
    match ← checkQuestions oj with
    | Option.none => pure (.inl noQuestionsFb)
    | some qs => do
      let items ← optionQualityItems 0 qs
      pure (.inr (fmt (joinSep "\n\n" items)))

/-- `option_quality` (score.py lines 352-405). -/
def option_quality (fmt : String → String)
    (judge : String → PyResult ScorerJudgment)
    (outputs : PyVal) : PyResult Feedback :=
  match optionQualityPre fmt outputs with
  | .exn e => .exn e
  | .ok (.inl fb) => .ok fb
  | .ok (.inr prompt) =>
    match judge prompt with
    | .ok r => .ok ⟨if r.passed then "yes" else "no", "Option quality: " ++ r.reason⟩
    | .exn e => .ok ⟨"no", "Error during LLM evaluation: " ++ e⟩

/-- The `questions_detail` loop of `answer_correctness_check`
(lines 442-448). -/
def answerDetailItems : Nat → List PyVal → PyResult (List String)
  | _, [] => .ok []
  | i, q :: rest =>
    match q with
    | .dict d =>
      if (pyDictGet? d "question").isSome ∧ (pyDictGet? d "options").isSome ∧
          (pyDictGet? d "answer").isSome then do
        let optionsStr ← pyJoinVal "\n" (pyGet d "options" (.list []))
        let tail ← answerDetailItems (i + 1) rest
        pure (("問題" ++ toString (i + 1) ++ ": " ++ pyStr (pyGet d "question" (.str "")) ++ "\n選択肢:\n" ++ optionsStr ++ "\n正解: " ++ pyStr (pyGet d "answer" (.str ""))) :: tail)
      else answerDetailItems (i + 1) rest
    | _ => answerDetailItems (i + 1) rest

/-- Everything `answer_correctness_check` does before `llm.invoke`. -/
def answerCorrectnessPre (fmt : String → String → String) (outputs : PyVal)
    (inputs : List (String × PyVal)) : PyResult (Sum Feedback String) :=
  match normalizeOutputs outputs with
  | .exn e => .ok (.inl (notValidJsonFb e))
  | .ok oj => do
    match ← checkQuestions oj with
    | Option.none => pure (.inl noQuestionsFb)
    | some qs =>
      let jpText := pyGet inputs "jp_text" (.str "")
      if ¬ pyTruthy jpText then
        pure (.inl ⟨"no", "No input text provided for answer verification."⟩)
      else do
        let items ← answerDetailItems 0 qs
        pure (.inr (fmt (pyStr jpText) (joinSep "\n\n" items)))

/-- `answer_correctness_check` (score.py lines 407-469). -/
def answer_correctness_check (fmt : String → String → String)
    (judge : String → PyResult ScorerJudgment)
    (outputs : PyVal) (inputs : List (String × PyVal)) : PyResult Feedback :=
  match answerCorrectnessPre fmt outputs inputs with
  | .exn e => .exn e
  | .ok (.inl fb) => .ok fb
  | .ok (.inr prompt) =>
    match judge prompt with
    | .ok r => .ok ⟨if r.passed then "yes" else "no", "Answer correctness: " ++ r.reason⟩
    | .exn e => .ok ⟨"no", "Error during LLM evaluation: " ++ e⟩

/-! Substring lemmas for "the rationale mentions ..." statements. -/

theorem prefixOfCL_append (x y t : List Char) (h : prefixOfCL x y = true) :
    prefixOfCL x (y ++ t) = true := by
  induction x generalizing y with
  | nil => simp [prefixOfCL]
  | cons a as ih =>
    cases y with
    | nil => simp [prefixOfCL] at h
    | cons b bs =>
      simp only [prefixOfCL, Bool.and_eq_true, decide_eq_true_eq] at h
      simp only [List.cons_append, prefixOfCL, Bool.and_eq_true, decide_eq_true_eq]
      exact ⟨h.1, ih bs h.2⟩

theorem prefixOfCL_refl (x : List Char) : prefixOfCL x x = true := by
  induction x with
  | nil => rfl
  | cons a as ih => simp [prefixOfCL, ih]

theorem prefixOfCL_self_append (x t : List Char) : prefixOfCL x (x ++ t) = true :=
  prefixOfCL_append x x t (prefixOfCL_refl x)

theorem segOfCL_of_prefixOfCL (x y : List Char) (h : prefixOfCL x y = true) :
    segOfCL x y = true := by
  cases y with
  | nil => simpa [segOfCL] using h
  | cons c cs => simp [segOfCL, h]

theorem segOfCL_append_left (a x b : List Char) (h : segOfCL x b = true) :
    segOfCL x (a ++ b) = true := by
  induction a with
  | nil => simpa using h
  | cons c cs ih => simp [segOfCL, ih]

theorem segOfCL_middle (a x t : List Char) : segOfCL x (a ++ (x ++ t)) = true :=
  segOfCL_append_left a x (x ++ t) (segOfCL_of_prefixOfCL x (x ++ t) (prefixOfCL_self_append x t))

theorem segOfCL_joinSep (sep : String) (l : List String) (s : String) (x : List Char)
    (hmem : s ∈ l) (hpre : prefixOfCL x s.data = true) :
    segOfCL x (joinSep sep l).data = true := by
  induction l with
  | nil => cases hmem
  | cons h0 rest ih =>
    rcases List.mem_cons.mp hmem with rfl | hmem2
    · cases rest with
      | nil => exact segOfCL_of_prefixOfCL _ _ hpre
      | cons r rs =>
        show segOfCL x ((s ++ sep) ++ joinSep sep (r :: rs)).data = true
        rw [String.data_append, String.data_append]
        rw [List.append_assoc]
        exact segOfCL_of_prefixOfCL _ _ (prefixOfCL_append _ _ _ hpre)
    · cases rest with
      | nil => cases hmem2
      | cons r rs =>
        show segOfCL x ((h0 ++ sep) ++ joinSep sep (r :: rs)).data = true
        rw [String.data_append]
        exact segOfCL_append_left _ _ _ (ih hmem2)

/-- A member of the joined issue list is mentioned in the final rationale
(once a prefix tag of the member is fixed). -/
theorem strMentions_joinSep (pre sep tag s : String) (l : List String)
    (hmem : s ∈ l) (hpre : prefixOfCL tag.data s.data = true) :
    strMentions tag (pre ++ joinSep sep l) = true := by
  unfold strMentions
  rw [String.data_append]
  exact segOfCL_append_left _ _ _ (segOfCL_joinSep sep l s _ hmem hpre)

theorem strMentions_middle (a x t : String) : strMentions x (a ++ x ++ t) = true := by
  unfold strMentions
  rw [String.data_append, String.data_append, List.append_assoc]
  exact segOfCL_middle a.data x.data t.data

/-! Example data shared by several claims. -/

/-- A fully well-formed question object. -/
def exQ1 : PyVal :=
  .dict [("category", .str "事実"), ("question", .str "質問1"),
         ("options", .list [.str "A案", .str "B案"]), ("answer", .str "A")]

/-- The fail Feedback every scorer returns on a bare Python list input. -/
def bareListFb : Feedback :=
  ⟨"no", "Output is not valid JSON: Unexpected type: <class \x27list\x27>"⟩

/-! Evaluation lemmas for the shared prologue. -/

/-- On a dict input the shared guard never raises: it hands back the
question list exactly when the `questions` key holds a list. -/
theorem checkQuestions_dict (d : List (String × PyVal)) :
    checkQuestions (.dict d) =
      .ok (match pyDictGet? d "questions" with
           | some (.list qs) => some qs
           | _ => Option.none) := by
  unfold checkQuestions pyIn pySubscr
  rcases h : pyDictGet? d "questions" with _ | v
  · simp [h, Bind.bind, PyResult.bind, Pure.pure]
  · cases v <;> simp [h, Bind.bind, PyResult.bind, Pure.pure]

/-- C1 counterexample: the same single well-formed question object, wrapped
as `{"questions": [...]}` versus fed as the bare list `[...]`.  The wrapped
shape passes `json_format_correct` while the bare list falls into the
`raise ValueError(f"Unexpected type: ...")` branch and yields a fail
verdict, so the two shapes do not produce identical verdicts. -/
theorem c1_counterexample :
    json_format_correct (.dict [("questions", .list [exQ1])]) =
      .ok ⟨"yes", "Output is valid JSON with " ++ toString 1 ++ " properly formatted questions."⟩ ∧
    json_format_correct (.list [exQ1]) = .ok bareListFb ∧
    json_format_correct (.dict [("questions", .list [exQ1])]) ≠
      json_format_correct (.list [exQ1]) := by
  refine ⟨rfl, rfl, ?_⟩
  decide

/-- C1 amended: a bare list of question objects is NOT accepted as an
alternate shape of the same QuestionSet.  A dict input `{"questions": [...]}`
is normalized (the guard hands the scorers the question list), but on a bare
Python list every one of the five rule-based scorers short-circuits in the
normalization prologue and returns the identical fail verdict
"Output is not valid JSON: Unexpected type: <class 'list'>", whatever the
list's contents; so the two shapes agree only when the wrapped shape also
fails. -/
theorem c1_amended (qs : List PyVal) :
    checkQuestions (.dict [("questions", .list qs)]) = .ok (some qs) ∧
    json_format_correct (.list qs) = .ok bareListFb ∧
    has_all_categories (.list qs) = .ok bareListFb ∧
    options_are_unique (.list qs) = .ok bareListFb ∧
    answer_is_valid (.list qs) = .ok bareListFb ∧
    has_sufficient_questions (.list qs) = .ok bareListFb := by
  refine ⟨?_, rfl, rfl, rfl, rfl, rfl⟩
  rw [checkQuestions_dict]
  simp [pyDictGet?]

/-- C8: the literal text "not json" fed to `json_format_correct`
(`schema_valid`) is caught by the `json.loads` try/except and produces a
fail verdict whose rationale embeds the JSON parse error; no exception
escapes to the caller. -/
theorem c8_not_json :
    ∃ fb, json_format_correct (.str "not json") = .ok fb ∧
      fb.value = "no" ∧
      strMentions "Output is not valid JSON" fb.rationale = true ∧
      fb.rationale = "Output is not valid JSON: " ++ "Expecting value" := by
  refine ⟨⟨"no", "Output is not valid JSON: " ++ "Expecting value"⟩, rfl, rfl, ?_, rfl⟩
  decide

/-- A question that carries no `options` field at all (either it is not a
mapping, or the mapping lacks the key): the `options_are_unique` loop
`continue`s straight past it. -/
def lacksOptionsField : PyVal → Bool
  | .dict d => (pyDictGet? d "options").isNone
  | _ => true

theorem optionIssueStep_skip (i : Nat) (q : PyVal) (h : lacksOptionsField q = true) :
    optionIssueStep i q = .ok Option.none := by
  cases q with
  | dict d =>
    simp only [lacksOptionsField, Option.isNone_iff_eq_none] at h
    simp [optionIssueStep, h]
  | str s => rfl
  | int n => rfl
  | bool b => rfl
  | none => rfl
  | list xs => rfl

theorem optionsIssues_all_skipped (qs : List PyVal) (k : Nat)
    (h : ∀ q ∈ qs, lacksOptionsField q = true) :
    optionsIssues k qs = .ok [] := by
  induction qs generalizing k with
  | nil => rfl
  | cons q rest ih =>
    have hq := h q (List.mem_cons_self q rest)
    have hrest : ∀ q2 ∈ rest, lacksOptionsField q2 = true :=
      fun q2 hm => h q2 (List.mem_cons_of_mem q hm)
    unfold optionsIssues
    rw [optionIssueStep_skip k q hq, ih (k + 1) hrest]
    rfl

/-- C10: `options_are_unique` silently skips every question that is not a
mapping or lacks an `options` key; a non-empty question list in which no
question carries an `options` field yields a pass verdict whose rationale
claims that all N questions have unique options. -/
theorem c10_skip_no_options (qs : List PyVal) (_hne : qs ≠ [])
    (h : ∀ q ∈ qs, lacksOptionsField q = true) :
    options_are_unique (.dict [("questions", .list qs)]) =
      .ok ⟨"yes", "All " ++ toString qs.length ++ " questions have unique options."⟩ := by
  unfold options_are_unique
  have hq : pyDictGet? [("questions", PyVal.list qs)] "questions" = some (.list qs) := by
    simp [pyDictGet?]
  simp only [normalizeOutputs]
  rw [checkQuestions_dict]
  simp only [hq, Bind.bind, PyResult.bind]
  rw [optionsIssues_all_skipped qs 0 h]
  simp [Bind.bind, PyResult.bind, Pure.pure]

/-- C10 witness: two questions, one a mapping without `options`, one not a
mapping at all; the scorer passes and claims both have unique options. -/
theorem c10_skip_no_options_witness :
    ([PyVal.dict [("question", PyVal.str "質問")], PyVal.int 5] ≠ ([] : List PyVal)) ∧
    (∀ q ∈ [PyVal.dict [("question", PyVal.str "質問")], PyVal.int 5], lacksOptionsField q = true) ∧
    options_are_unique (.dict [("questions", .list [PyVal.dict [("question", PyVal.str "質問")], PyVal.int 5])]) =
      .ok ⟨"yes", "All " ++ toString 2 ++ " questions have unique options."⟩ := by
  have hall : ∀ q ∈ [PyVal.dict [("question", PyVal.str "質問")], PyVal.int 5], lacksOptionsField q = true := by
    intro q hq
    rcases List.mem_cons.mp hq with rfl | hq2
    · rfl
    · rcases List.mem_cons.mp hq2 with rfl | hq3
      · rfl
      · cases hq3
  exact ⟨List.cons_ne_nil _ _, hall, c10_skip_no_options _ (List.cons_ne_nil _ _) hall⟩

/-!
Safety conditions under which the per-question loops cannot raise: every
hash operation the loops perform (`categories.add(q["category"])`,
`set(options)`, `answer not in valid_answers`) is applied to a hashable
value.
-/

/-- No uncaught TypeError can arise from this question in any of the three
per-question loops. -/
def qSafe : PyVal → Bool
  | .dict d =>
    (match pyDictGet? d "category" with
     | some c => pyHashable c
     | Option.none => true) &&
    (match pyDictGet? d "answer" with
     | some a => pyHashable a
     | Option.none => true) &&
    (match pyDictGet? d "options" with
     | some (.list os) => os.all pyHashable
     | _ => true)
  | _ => true

/-- Safety of a whole dict input for the rule-based scorers. -/
def dictSafe (d : List (String × PyVal)) : Bool :=
  match pyDictGet? d "questions" with
  | some (.list qs) => qs.all qSafe
  | _ => true

theorem qSafe_category {d : List (String × PyVal)} {c : PyVal}
    (h : qSafe (.dict d) = true) (hc : pyDictGet? d "category" = some c) :
    pyHashable c = true := by
  simp only [qSafe, hc, Bool.and_eq_true] at h
  exact h.1.1

theorem qSafe_answer {d : List (String × PyVal)} {a : PyVal}
    (h : qSafe (.dict d) = true) (ha : pyDictGet? d "answer" = some a) :
    pyHashable a = true := by
  simp only [qSafe, ha, Bool.and_eq_true] at h
  exact h.1.2

theorem qSafe_options {d : List (String × PyVal)} {os : List PyVal}
    (h : qSafe (.dict d) = true) (ho : pyDictGet? d "options" = some (.list os)) :
    os.all pyHashable = true := by
  simp only [qSafe, ho, Bool.and_eq_true] at h
  exact h.2

def PyResult.isOk {α : Type} : PyResult α → Bool
  | .ok _ => true
  | .exn _ => false

theorem exists_ok_of_isOk {α : Type} {r : PyResult α} (h : r.isOk = true) :
    ∃ a, r = .ok a := by
  cases r with
  | ok a => exact ⟨a, rfl⟩
  | exn m => cases h

theorem isOk_if {c : Prop} [Decidable c] {α : Type} (a b : α) :
    (if c then PyResult.ok a else PyResult.ok b).isOk = true := by
  split <;> rfl

/-- `set(xs)` succeeds on a list of hashable values and equals the
first-occurrence dedup of the accumulated elements. -/
theorem pyListToSetAux_ok (os : List PyVal) (acc : List PyVal)
    (h : os.all pyHashable = true) :
    pyListToSetAux acc os = .ok (acc ++ dedupFirstAux acc os) := by
  induction os generalizing acc with
  | nil => simp [pyListToSetAux, dedupFirstAux]
  | cons x xs ih =>
    simp only [List.all_cons, Bool.and_eq_true] at h
    by_cases hc : acc.contains x = true
    · simp only [pyListToSetAux, pySetInsert, dedupFirstAux, h.1, hc, if_true,
        Bind.bind, PyResult.bind]
      exact ih acc h.2
    · simp only [Bool.not_eq_true] at hc
      simp only [pyListToSetAux, pySetInsert, dedupFirstAux, h.1, hc, if_true,
        Bool.false_eq_true, if_false, Bind.bind, PyResult.bind]
      rw [ih (acc ++ [x]) h.2]
      simp

theorem pyListToSet_ok (os : List PyVal) (h : os.all pyHashable = true) :
    pyListToSet os = .ok (dedupFirst os) := by
  unfold pyListToSet dedupFirst
  simpa using pyListToSetAux_ok os [] h

/-- The `options_are_unique` loop body never raises on a safe question. -/
theorem optionIssueStep_ok (i : Nat) (q : PyVal) (h : qSafe q = true) :
    ∃ o, optionIssueStep i q = .ok o := by
  apply exists_ok_of_isOk
  cases q with
  | dict d =>
    rcases ho : pyDictGet? d "options" with _ | v
    · simp [optionIssueStep, ho, PyResult.isOk]
    · cases v with
      | list os =>
        simp only [optionIssueStep, ho, pyListToSet_ok os (qSafe_options h ho),
          Bind.bind, PyResult.bind, Pure.pure]
        exact isOk_if _ _
      | str s => simp [optionIssueStep, ho, PyResult.isOk]
      | int n => simp [optionIssueStep, ho, PyResult.isOk]
      | bool b => simp [optionIssueStep, ho, PyResult.isOk]
      | none => simp [optionIssueStep, ho, PyResult.isOk]
      | dict d2 => simp [optionIssueStep, ho, PyResult.isOk]
  | str s => rfl
  | int n => rfl
  | bool b => rfl
  | none => rfl
  | list xs => rfl

theorem optionsIssues_ok (qs : List PyVal) (k : Nat) (h : qs.all qSafe = true) :
    ∃ l, optionsIssues k qs = .ok l := by
  induction qs generalizing k with
  | nil => exact ⟨[], rfl⟩
  | cons q rest ih =>
    simp only [List.all_cons, Bool.and_eq_true] at h
    obtain ⟨o, ho⟩ := optionIssueStep_ok k q h.1
    obtain ⟨l, hl⟩ := ih (k + 1) h.2
    cases o with
    | some s =>
      exact ⟨s :: l, by simp [optionsIssues, ho, hl, Bind.bind, PyResult.bind, Pure.pure]⟩
    | none =>
      exact ⟨l, by simp [optionsIssues, ho, hl, Bind.bind, PyResult.bind, Pure.pure]⟩

/-- The `answer_is_valid` loop body never raises on a safe question. -/
theorem answerIssueStep_ok (i : Nat) (q : PyVal) (h : qSafe q = true) :
    ∃ o, answerIssueStep i q = .ok o := by
  apply exists_ok_of_isOk
  cases q with
  | dict d =>
    have hh : pyHashable (pyGet d "answer" (.str "")) = true := by
      unfold pyGet
      rcases ha : pyDictGet? d "answer" with _ | a
      · rfl
      · simpa [ha] using qSafe_answer h ha
    by_cases hv : validAnswer (pyGet d "answer" (.str "")) = true
    · cases hgo : pyGet d "options" (.list []) with
      | list os =>
        simp only [answerIssueStep, hh, hv, hgo, Bool.not_true, Bool.false_eq_true,
          if_false]
        exact isOk_if _ _
      | str s => simp [answerIssueStep, hh, hv, hgo, PyResult.isOk]
      | int n => simp [answerIssueStep, hh, hv, hgo, PyResult.isOk]
      | bool b => simp [answerIssueStep, hh, hv, hgo, PyResult.isOk]
      | none => simp [answerIssueStep, hh, hv, hgo, PyResult.isOk]
      | dict d2 => simp [answerIssueStep, hh, hv, hgo, PyResult.isOk]
    · simp only [Bool.not_eq_true] at hv
      simp [answerIssueStep, hh, hv, PyResult.isOk]
  | str s => rfl
  | int n => rfl
  | bool b => rfl
  | none => rfl
  | list xs => rfl

theorem answerIssues_ok (qs : List PyVal) (k : Nat) (h : qs.all qSafe = true) :
    ∃ l, answerIssues k qs = .ok l := by
  induction qs generalizing k with
  | nil => exact ⟨[], rfl⟩
  | cons q rest ih =>
    simp only [List.all_cons, Bool.and_eq_true] at h
    obtain ⟨o, ho⟩ := answerIssueStep_ok k q h.1
    obtain ⟨l, hl⟩ := ih (k + 1) h.2
    cases o with
    | some s =>
      exact ⟨s :: l, by simp [answerIssues, ho, hl, Bind.bind, PyResult.bind, Pure.pure]⟩
    | none =>
      exact ⟨l, by simp [answerIssues, ho, hl, Bind.bind, PyResult.bind, Pure.pure]⟩

/-- The category-collection loop never raises when every question is safe. -/
theorem collectCategories_ok (qs : List PyVal) (acc : List PyVal)
    (h : qs.all qSafe = true) :
    ∃ cats, collectCategories acc qs = .ok cats := by
  induction qs generalizing acc with
  | nil => exact ⟨acc, rfl⟩
  | cons q rest ih =>
    simp only [List.all_cons, Bool.and_eq_true] at h
    cases q with
    | dict d =>
      rcases hc : pyDictGet? d "category" with _ | c
      · simpa only [collectCategories, hc] using ih acc h.2
      · have hh := qSafe_category h.1 hc
        obtain ⟨cats, hcats⟩ := ih (if acc.contains c = true then acc else acc ++ [c]) h.2
        exact ⟨cats, by simp [collectCategories, hc, pySetInsert, hh, hcats,
          Bind.bind, PyResult.bind]⟩
    | str s => simpa only [collectCategories] using ih acc h.2
    | int n => simpa only [collectCategories] using ih acc h.2
    | bool b => simpa only [collectCategories] using ih acc h.2
    | none => simpa only [collectCategories] using ih acc h.2
    | list xs => simpa only [collectCategories] using ih acc h.2

theorem json_format_correct_total (v : PyVal) :
    ∃ fb, json_format_correct v = .ok fb := by
  apply exists_ok_of_isOk
  unfold json_format_correct
  split
  · rfl
  · split
    · split
      · rfl
      · split
        · split
          · rfl
          · rfl
        · rfl
    · rfl

/-- C2 counterexample: two distinct inputs on which a scorer raises an
uncaught TypeError instead of returning a verdict.  (a) `options_are_unique`
on `{"questions": [{"options": [[], []]}]}`: `set(options)` hashes the
unhashable list elements.  (b) `has_sufficient_questions` on the JSON text
`["questions"]`: the parsed value is a list, `"questions" in output_json`
is True by element membership, and `output_json["questions"]` then indexes
a list with a string. -/
theorem c2_counterexample :
    options_are_unique
        (.dict [("questions", .list [.dict [("options", .list [.list [], .list []])]])]) =
      .exn ("unhashable type: " ++ "\x27list\x27") ∧
    has_sufficient_questions (.str "[\"questions\"]") =
      .exn "list indices must be integers or slices, not str" := by
  exact ⟨rfl, rfl⟩

/-- C2 amended: `json_format_correct` is total on every input, and
`has_sufficient_questions` is total on every dict input; the remaining
three rule-based scorers are total on every dict input whose questions
only hold hashable values where the loops hash (`category`, `answer`, and
the elements of a list-valued `options`).  Outside those conditions the
scorers can raise (see the counterexample). -/
theorem c2_amended :
    (∀ v, ∃ fb, json_format_correct v = .ok fb) ∧
    (∀ d, ∃ fb, has_sufficient_questions (.dict d) = .ok fb) ∧
    (∀ d, dictSafe d = true →
      (∃ fb, has_all_categories (.dict d) = .ok fb) ∧
      (∃ fb, options_are_unique (.dict d) = .ok fb) ∧
      (∃ fb, answer_is_valid (.dict d) = .ok fb)) := by
  refine ⟨json_format_correct_total, ?_, ?_⟩
  · intro d
    apply exists_ok_of_isOk
    unfold has_sufficient_questions
    simp only [normalizeOutputs]
    rw [checkQuestions_dict]
    rcases hq : pyDictGet? d "questions" with _ | v
    · simp [hq, Bind.bind, PyResult.bind, Pure.pure, PyResult.isOk]
    · cases v <;>
        simp only [hq, Bind.bind, PyResult.bind, Pure.pure] <;>
        first
          | rfl
          | exact isOk_if _ _
  · intro d hsafe
    refine ⟨?_, ?_, ?_⟩
    · apply exists_ok_of_isOk
      unfold has_all_categories
      simp only [normalizeOutputs]
      rw [checkQuestions_dict]
      rcases hq : pyDictGet? d "questions" with _ | v
      · simp [Bind.bind, PyResult.bind, Pure.pure, PyResult.isOk]
      · cases v with
        | list qs =>
          have hall : qs.all qSafe = true := by
            unfold dictSafe at hsafe
            rw [hq] at hsafe
            exact hsafe
          obtain ⟨cats, hcats⟩ := collectCategories_ok qs [] hall
          simp only [Bind.bind, PyResult.bind, hcats, Pure.pure]
          exact isOk_if _ _
        | str s => rfl
        | int n => rfl
        | bool b => rfl
        | none => rfl
        | dict d2 => rfl
    · apply exists_ok_of_isOk
      unfold options_are_unique
      simp only [normalizeOutputs]
      rw [checkQuestions_dict]
      rcases hq : pyDictGet? d "questions" with _ | v
      · simp [Bind.bind, PyResult.bind, Pure.pure, PyResult.isOk]
      · cases v with
        | list qs =>
          have hall : qs.all qSafe = true := by
            unfold dictSafe at hsafe
            rw [hq] at hsafe
            exact hsafe
          obtain ⟨l, hl⟩ := optionsIssues_ok qs 0 hall
          simp only [Bind.bind, PyResult.bind, hl, Pure.pure]
          exact isOk_if _ _
        | str s => rfl
        | int n => rfl
        | bool b => rfl
        | none => rfl
        | dict d2 => rfl
    · apply exists_ok_of_isOk
      unfold answer_is_valid
      simp only [normalizeOutputs]
      rw [checkQuestions_dict]
      rcases hq : pyDictGet? d "questions" with _ | v
      · simp [Bind.bind, PyResult.bind, Pure.pure, PyResult.isOk]
      · cases v with
        | list qs =>
          have hall : qs.all qSafe = true := by
            unfold dictSafe at hsafe
            rw [hq] at hsafe
            exact hsafe
          obtain ⟨l, hl⟩ := answerIssues_ok qs 0 hall
          simp only [Bind.bind, PyResult.bind, hl, Pure.pure]
          exact isOk_if _ _
        | str s => rfl
        | int n => rfl
        | bool b => rfl
        | none => rfl
        | dict d2 => rfl

/-- C2 amended witness: the safety hypothesis holds on a concrete
well-formed dict input and the three conditional scorers return verdicts
there. -/
theorem c2_amended_witness :
    dictSafe [("questions", PyVal.list [exQ1])] = true ∧
    (∃ fb, has_all_categories (.dict [("questions", PyVal.list [exQ1])]) = .ok fb) ∧
    (∃ fb, options_are_unique (.dict [("questions", PyVal.list [exQ1])]) = .ok fb) ∧
    (∃ fb, answer_is_valid (.dict [("questions", PyVal.list [exQ1])]) = .ok fb) := by
  have hs : dictSafe [("questions", PyVal.list [exQ1])] = true := rfl
  obtain ⟨h1, h2, h3⟩ := c2_amended.2.2 [("questions", PyVal.list [exQ1])] hs
  exact ⟨hs, h1, h2, h3⟩

/-- A question object that is a mapping holding all four required fields
(`category`, `question`, `options`, `answer`) — the only thing
`json_format_correct` actually checks per question; field types are never
inspected. -/
def hasAllRequiredFields : PyVal → Bool
  | .dict d => requiredFields.all (fun f => (pyDictGet? d f).isSome)
  | _ => false

theorem filter_isEmpty_eq_all_not (p : String → Bool) (l : List String) :
    (l.filter p).isEmpty = l.all (fun x => !p x) := by
  induction l with
  | nil => rfl
  | cons x xs ih =>
    by_cases hx : p x = true
    · simp [List.filter_cons, hx]
    · simp only [Bool.not_eq_true] at hx
      simp [List.filter_cons, hx, ih]

theorem missing_isEmpty_eq (d : List (String × PyVal)) :
    (requiredFields.filter (fun f => (pyDictGet? d f).isNone)).isEmpty =
      hasAllRequiredFields (.dict d) := by
  rw [filter_isEmpty_eq_all_not]
  unfold hasAllRequiredFields
  have he : (fun f => !(pyDictGet? d f).isNone) = (fun f => (pyDictGet? d f).isSome) :=
    funext fun f => by cases pyDictGet? d f <;> rfl
  rw [he]

theorem questionFieldsCheck_none_iff (qs : List PyVal) (i : Nat) :
    questionFieldsCheck i qs = Option.none ↔ qs.all hasAllRequiredFields = true := by
  induction qs generalizing i with
  | nil => simp [questionFieldsCheck]
  | cons q rest ih =>
    cases q with
    | dict d =>
      by_cases hm : (requiredFields.filter (fun f => (pyDictGet? d f).isNone)).isEmpty = true
      · have hall : hasAllRequiredFields (.dict d) = true := by
          rw [← missing_isEmpty_eq]; exact hm
        simp [questionFieldsCheck, hm, hall, ih (i + 1)]
      · simp only [Bool.not_eq_true] at hm
        have hall : hasAllRequiredFields (.dict d) = false := by
          rw [← missing_isEmpty_eq]; exact hm
        simp [questionFieldsCheck, hm, hall]
    | str s => simp [questionFieldsCheck, hasAllRequiredFields]
    | int n => simp [questionFieldsCheck, hasAllRequiredFields]
    | bool b => simp [questionFieldsCheck, hasAllRequiredFields]
    | none => simp [questionFieldsCheck, hasAllRequiredFields]
    | list xs => simp [questionFieldsCheck, hasAllRequiredFields]

theorem questionFieldsCheck_some_value (qs : List PyVal) (i : Nat) (fb : Feedback)
    (h : questionFieldsCheck i qs = some fb) : fb.value = "no" := by
  induction qs generalizing i with
  | nil => cases h
  | cons q rest ih =>
    cases q with
    | dict d =>
      by_cases hm : (requiredFields.filter (fun f => (pyDictGet? d f).isNone)).isEmpty = true
      · simp only [questionFieldsCheck, hm, if_true] at h
        exact ih (i + 1) h
      · simp only [Bool.not_eq_true] at hm
        simp only [questionFieldsCheck, hm, Bool.false_eq_true, if_false,
          Option.some.injEq] at h
        rw [← h]
    | str s =>
      simp only [questionFieldsCheck, Option.some.injEq] at h
      rw [← h]
    | int n =>
      simp only [questionFieldsCheck, Option.some.injEq] at h
      rw [← h]
    | bool b =>
      simp only [questionFieldsCheck, Option.some.injEq] at h
      rw [← h]
    | none =>
      simp only [questionFieldsCheck, Option.some.injEq] at h
      rw [← h]
    | list xs =>
      simp only [questionFieldsCheck, Option.some.injEq] at h
      rw [← h]

/-- C3 counterexample: a question in which every required field is present
but every field has the wrong type (`category` an int, `question` a list,
`options` a string, `answer` None).  The claim says `json_format_correct`
returns fail on such a type-violating structure; the scorer passes it. -/
theorem c3_counterexample :
    json_format_correct
        (.dict [("questions", .list
          [.dict [("category", .int 1), ("question", .list []),
                  ("options", .str "x"), ("answer", .none)]])]) =
      .ok ⟨"yes", "Output is valid JSON with " ++ toString 1 ++ " properly formatted questions."⟩ := by
  rfl

/-- C3 amended: on a dict whose `questions` key holds a list,
`json_format_correct` passes exactly when every question is a mapping with
all four required fields PRESENT; a missing field or a non-mapping question
fails (with the reason in the rationale), but a present field of the wrong
type is never detected. -/
theorem c3_amended (d : List (String × PyVal)) (qs : List PyVal)
    (hq : pyDictGet? d "questions" = some (.list qs)) :
    ∃ fb, json_format_correct (.dict d) = .ok fb ∧
      (fb.value = "yes" ↔ qs.all hasAllRequiredFields = true) := by
  unfold json_format_correct
  simp only [normalizeOutputs, hq]
  cases hc : questionFieldsCheck 0 qs with
  | none =>
    refine ⟨_, rfl, ?_⟩
    simp only [true_iff, iff_true]
    exact (questionFieldsCheck_none_iff qs 0).mp hc
  | some fb =>
    refine ⟨fb, rfl, ?_⟩
    have hv := questionFieldsCheck_some_value qs 0 fb hc
    have hall : qs.all hasAllRequiredFields = false := by
      cases h2 : qs.all hasAllRequiredFields with
      | true =>
        rw [(questionFieldsCheck_none_iff qs 0).mpr h2] at hc
        cases hc
      | false => rfl
    rw [hv, hall]
    simp

/-- C3 amended witness: a question with all fields present but missing none;
and the iff instantiated at a concrete input. -/
theorem c3_amended_witness :
    pyDictGet? [("questions", PyVal.list [exQ1])] "questions" = some (.list [exQ1]) ∧
    ∃ fb, json_format_correct (.dict [("questions", PyVal.list [exQ1])]) = .ok fb ∧
      (fb.value = "yes" ↔ [exQ1].all hasAllRequiredFields = true) :=
  ⟨rfl, c3_amended [("questions", PyVal.list [exQ1])] [exQ1] rfl⟩

/-- C7: `has_sufficient_questions` passes iff the question list holds at
least `sufficientThreshold` questions; the threshold constant is 3 (the
literal in `if num_questions < 3`), the rationale reports the count, and
the boundary cases behave as claimed: 3 questions pass, 2 fail, 0 fail. -/
theorem c7_sufficient_count :
    (∀ qs : List PyVal, ∃ fb,
        has_sufficient_questions (.dict [("questions", .list qs)]) = .ok fb ∧
        (fb.value = "yes" ↔ sufficientThreshold ≤ qs.length) ∧
        strMentions (toString qs.length) fb.rationale = true) ∧
    sufficientThreshold = 3 ∧
    has_sufficient_questions (.dict [("questions", .list [.none, .none, .none])]) =
      .ok ⟨"yes", "Generated " ++ toString 3 ++ " questions, which provides good coverage."⟩ ∧
    has_sufficient_questions (.dict [("questions", .list [.none, .none])]) =
      .ok ⟨"no", "Only " ++ toString 2 ++ " questions generated. Expected at least 3 for adequate coverage."⟩ ∧
    has_sufficient_questions (.dict [("questions", .list [])]) =
      .ok ⟨"no", "Only " ++ toString 0 ++ " questions generated. Expected at least 3 for adequate coverage."⟩ := by
  refine ⟨?_, rfl, rfl, rfl, rfl⟩
  intro qs
  have hred : has_sufficient_questions (.dict [("questions", .list qs)]) =
      if qs.length < sufficientThreshold then
        .ok ⟨"no", "Only " ++ toString qs.length ++ " questions generated. Expected at least 3 for adequate coverage."⟩
      else
        .ok ⟨"yes", "Generated " ++ toString qs.length ++ " questions, which provides good coverage."⟩ := rfl
  rw [hred]
  by_cases hlen : qs.length < sufficientThreshold
  · rw [if_pos hlen]
    refine ⟨_, rfl, ?_, ?_⟩
    · constructor
      · intro hv
        exact ((by decide : ("no" : String) ≠ "yes") hv).elim
      · intro hle
        exact absurd hlen (Nat.not_lt.mpr hle)
    · exact strMentions_middle "Only " (toString qs.length)
        " questions generated. Expected at least 3 for adequate coverage."
  · rw [if_neg hlen]
    refine ⟨_, rfl, ?_, ?_⟩
    · exact iff_of_true rfl (Nat.le_of_not_lt hlen)
    · exact strMentions_middle "Generated " (toString qs.length)
        " questions, which provides good coverage."

/-- A question carrying only a `category` field. -/
def catQ (c : String) : PyVal := .dict [("category", .str c)]

/-- C5: `has_all_categories` bucket behavior.  The exact label 事実 fills
the facts bucket; either of メインポイント / 暗示されたメッセージ fills the
message bucket; any of 文法 / 表現 / 文法や表現 fills the grammar bucket.
Concretely: the set {事実, 暗示されたメッセージ, 文法や表現} passes, the set
{事実, メインポイント, 文法} passes, and all-事実 fails with the missing
bucket names and the observed category set in the rationale.  In general,
on collected categories `cats` the verdict is pass exactly when all three
bucket predicates hit, and every fail rationale lists the missing buckets
and the observed set. -/
theorem c5_category_coverage :
    has_all_categories (.dict [("questions",
        .list [catQ "事実", catQ "暗示されたメッセージ", catQ "文法や表現"])]) =
      .ok ⟨"yes", "Output contains all required category types. Found categories: " ++
        pySetRepr [.str "事実", .str "暗示されたメッセージ", .str "文法や表現"]⟩ ∧
    has_all_categories (.dict [("questions",
        .list [catQ "事実", catQ "メインポイント", catQ "文法"])]) =
      .ok ⟨"yes", "Output contains all required category types. Found categories: " ++
        pySetRepr [.str "事実", .str "メインポイント", .str "文法"]⟩ ∧
    has_all_categories (.dict [("questions",
        .list [catQ "事実", catQ "事実", catQ "事実"])]) =
      .ok ⟨"no", "Missing categories: " ++
        pyStrListRepr ["メインポイント/暗示されたメッセージ", "文法や表現"] ++
        ". Found categories: " ++ pySetRepr [.str "事実"]⟩ ∧
    (∀ qs cats, collectCategories [] qs = .ok cats →
      ∃ fb, has_all_categories (.dict [("questions", .list qs)]) = .ok fb ∧
        (fb.value = "yes" ↔
          (hasFactB cats = true ∧ hasMessageB cats = true ∧ hasGrammarB cats = true)) ∧
        (fb.value = "no" →
          fb.rationale = "Missing categories: " ++ pyStrListRepr (missingCategories cats) ++
            ". Found categories: " ++ pySetRepr cats)) := by
  refine ⟨rfl, rfl, rfl, ?_⟩
  intro qs cats hcats
  have hred : has_all_categories (.dict [("questions", .list qs)]) =
      PyResult.bind (collectCategories [] qs) (fun cats =>
        if hasFactB cats && hasMessageB cats && hasGrammarB cats then
          PyResult.ok ⟨"yes", "Output contains all required category types. Found categories: " ++ pySetRepr cats⟩
        else
          PyResult.ok ⟨"no", "Missing categories: " ++ pyStrListRepr (missingCategories cats) ++ ". Found categories: " ++ pySetRepr cats⟩) := rfl
  rw [hred, hcats]
  simp only [PyResult.bind]
  by_cases hcond : (hasFactB cats && hasMessageB cats && hasGrammarB cats) = true
  · rw [if_pos hcond]
    simp only [Bool.and_eq_true] at hcond
    refine ⟨_, rfl, iff_of_true rfl ⟨hcond.1.1, hcond.1.2, hcond.2⟩, ?_⟩
    intro hno
    exact ((by decide : ("yes" : String) ≠ "no") hno).elim
  · rw [if_neg hcond]
    refine ⟨_, rfl, ?_, fun _ => rfl⟩
    refine iff_of_false (fun hv => (by decide : ("no" : String) ≠ "yes") hv) ?_
    rintro ⟨h1, h2, h3⟩
    exact hcond (by simp [h1, h2, h3])

/-- C5 witness: the general characterization instantiated on the all-事実
set, whose collected category set is the singleton {事実}. -/
theorem c5_category_coverage_witness :
    collectCategories [] [catQ "事実", catQ "事実", catQ "事実"] = .ok [.str "事実"] ∧
    ∃ fb, has_all_categories (.dict [("questions",
        .list [catQ "事実", catQ "事実", catQ "事実"])]) = .ok fb ∧
      (fb.value = "yes" ↔
        (hasFactB [.str "事実"] = true ∧ hasMessageB [.str "事実"] = true ∧
          hasGrammarB [.str "事実"] = true)) ∧
      (fb.value = "no" →
        fb.rationale = "Missing categories: " ++
          pyStrListRepr (missingCategories [.str "事実"]) ++
          ". Found categories: " ++ pySetRepr [.str "事実"]) :=
  ⟨rfl, c5_category_coverage.2.2.2 [catQ "事実", catQ "事実", catQ "事実"] [.str "事実"] rfl⟩

/-- Did the loop body append an issue for this question? -/
def issueRaised : PyResult (Option String) → Bool
  | .ok (some _) => true
  | _ => false

/-- A question with two options and a configurable answer letter. -/
def ansQ (a : String) : PyVal :=
  .dict [("question", .str "質問"),
         ("options", .list [.str "選択肢1", .str "選択肢2"]),
         ("answer", .str a)]

/-- C6: for a question whose `answer` field holds a (hashable) value `a`
and whose `options` field holds a list of length n, `answer_is_valid`
flags the question exactly when `a` is not one of the strings A/B/C/D or
its zero-based letter index (A→0, B→1, C→2, D→3) is ≥ n.  In particular a
2-option question with answer C fails the scorer and the same question
with answer B passes it. -/
theorem c6_answer_validity :
    (∀ (i : Nat) (d : List (String × PyVal)) (a : PyVal) (os : List PyVal),
      pyDictGet? d "answer" = some a → pyHashable a = true →
      pyDictGet? d "options" = some (.list os) →
      (issueRaised (answerIssueStep i (.dict d)) = true ↔
        (validAnswer a = false ∨ os.length ≤ letterIndex a))) ∧
    letterIndex (.str "A") = 0 ∧ letterIndex (.str "B") = 1 ∧
    letterIndex (.str "C") = 2 ∧ letterIndex (.str "D") = 3 ∧
    answer_is_valid (.dict [("questions", .list [ansQ "C"])]) =
      .ok ⟨"no", "Found invalid answers: " ++ ("Question " ++ toString 0 ++ ":") ++
        " answer \x27C\x27 references option " ++ toString 3 ++ " but only " ++
        toString 2 ++ " options exist"⟩ ∧
    answer_is_valid (.dict [("questions", .list [ansQ "B"])]) =
      .ok ⟨"yes", "All " ++ toString 1 ++ " questions have valid answers."⟩ := by
  refine ⟨?_, rfl, rfl, rfl, rfl, rfl, rfl⟩
  intro i d a os ha hh ho
  have hga : pyGet d "answer" (.str "") = a := by simp [pyGet, ha]
  have hgo : pyGet d "options" (.list []) = .list os := by simp [pyGet, ho]
  by_cases hv : validAnswer a = true
  · by_cases hlen : os.length ≤ letterIndex a
    · simp [answerIssueStep, hga, hgo, hh, hv, hlen, issueRaised]
    · simp [answerIssueStep, hga, hgo, hh, hv, hlen, issueRaised]
  · simp only [Bool.not_eq_true] at hv
    simp [answerIssueStep, hga, hgo, hh, hv, issueRaised]

/-- C6 witness: the characterization applied to the boundary question with
2 options and answer C (letter index 2 ≥ 2). -/
theorem c6_answer_validity_witness :
    pyDictGet? [("question", PyVal.str "質問"),
        ("options", PyVal.list [.str "選択肢1", .str "選択肢2"]),
        ("answer", PyVal.str "C")] "answer" = some (.str "C") ∧
    pyHashable (.str "C") = true ∧
    (issueRaised (answerIssueStep 0 (ansQ "C")) = true ↔
      (validAnswer (.str "C") = false ∨
        ([PyVal.str "選択肢1", PyVal.str "選択肢2"] : List PyVal).length ≤ letterIndex (.str "C"))) :=
  ⟨rfl, rfl, c6_answer_validity.1 0
    [("question", PyVal.str "質問"),
     ("options", PyVal.list [.str "選択肢1", .str "選択肢2"]),
     ("answer", PyVal.str "C")]
    (.str "C") [PyVal.str "選択肢1", PyVal.str "選択肢2"] rfl rfl rfl⟩

/-- C9: each semantic scorer fails closed.  Whenever execution reaches the
external judge call (the pre-stage hands over a prompt) and the judge call
raises — network error, timeout, or unparseable structured output — the
scorer swallows the exception and returns a fail verdict carrying the
error message; it never propagates the exception and never passes. -/
theorem c9_fail_closed :
    (∀ fmt judge outs ins p e, relevancePre fmt outs ins = .ok (.inr p) →
      judge p = .exn e →
      question_text_relevance fmt judge outs ins =
        .ok ⟨"no", "Error during LLM evaluation: " ++ e⟩) ∧
    (∀ fmt judge outs p e, optionQualityPre fmt outs = .ok (.inr p) →
      judge p = .exn e →
      option_quality fmt judge outs =
        .ok ⟨"no", "Error during LLM evaluation: " ++ e⟩) ∧
    (∀ fmt judge outs ins p e, answerCorrectnessPre fmt outs ins = .ok (.inr p) →
      judge p = .exn e →
      answer_correctness_check fmt judge outs ins =
        .ok ⟨"no", "Error during LLM evaluation: " ++ e⟩) := by
  refine ⟨?_, ?_, ?_⟩
  · intro fmt judge outs ins p e hpre hj
    unfold question_text_relevance
    rw [hpre]
    simp only [hj]
  · intro fmt judge outs p e hpre hj
    unfold option_quality
    rw [hpre]
    simp only [hj]
  · intro fmt judge outs ins p e hpre hj
    unfold answer_correctness_check
    rw [hpre]
    simp only [hj]

/-- C9 witness: a concrete valid question set, a concrete prompt formatter
and a judge that always times out; all three scorers return the fail
verdict with the timeout message. -/
theorem c9_fail_closed_witness :
    relevancePre (fun a b => a ++ "|" ++ b) (.dict [("questions", .list [exQ1])])
        [("jp_text", .str "テキスト")] = .ok (.inr ("テキスト|" ++ toString 1 ++ ". 質問1")) ∧
    (fun _ => PyResult.exn "Read timed out" : String → PyResult ScorerJudgment)
        ("テキスト|" ++ toString 1 ++ ". 質問1") = .exn "Read timed out" ∧
    question_text_relevance (fun a b => a ++ "|" ++ b)
        (fun _ => PyResult.exn "Read timed out")
        (.dict [("questions", .list [exQ1])]) [("jp_text", .str "テキスト")] =
      .ok ⟨"no", "Error during LLM evaluation: " ++ "Read timed out"⟩ ∧
    option_quality (fun s => s) (fun _ => PyResult.exn "Read timed out")
        (.dict [("questions", .list [exQ1])]) =
      .ok ⟨"no", "Error during LLM evaluation: " ++ "Read timed out"⟩ ∧
    answer_correctness_check (fun a b => a ++ "|" ++ b)
        (fun _ => PyResult.exn "Read timed out")
        (.dict [("questions", .list [exQ1])]) [("jp_text", .str "テキスト")] =
      .ok ⟨"no", "Error during LLM evaluation: " ++ "Read timed out"⟩ :=
by
  refine ⟨rfl, rfl, ?_, ?_, ?_⟩
  · exact c9_fail_closed.1 (fun a b => a ++ "|" ++ b) (fun _ => PyResult.exn "Read timed out")
      (.dict [("questions", .list [exQ1])]) [("jp_text", .str "テキスト")]
      ("テキスト|" ++ toString 1 ++ ". 質問1") "Read timed out" (by rfl) rfl
  · exact c9_fail_closed.2.1 (fun s => s) (fun _ => PyResult.exn "Read timed out")
      (.dict [("questions", .list [exQ1])])
      ("問題" ++ toString 1 ++ ": 質問1\n選択肢:\nA案\nB案") "Read timed out" (by rfl) rfl
  · exact c9_fail_closed.2.2 (fun a b => a ++ "|" ++ b) (fun _ => PyResult.exn "Read timed out")
      (.dict [("questions", .list [exQ1])]) [("jp_text", .str "テキスト")]
      ("テキスト|" ++ ("問題" ++ toString 1 ++ ": 質問1\n選択肢:\nA案\nB案\n正解: A")) "Read timed out" (by rfl) rfl

/-- The question's `options` field is a list containing at least one
duplicate value (exact equality), as detected by `len(options) !=
len(set(options))`. -/
def hasDuplicateOptions : PyVal → Bool
  | .dict d =>
    match pyDictGet? d "options" with
    | some (.list os) => decide (os.length ≠ (dedupFirst os).length)
    | _ => false
  | _ => false

/-- The question's answer violates the `answer_is_valid` rule: the answer
is not one of A/B/C/D, or its letter index falls outside the options
list. -/
def answerViolates : PyVal → Bool
  | .dict d =>
    if ¬ validAnswer (pyGet d "answer" (.str "")) then true
    else
      match pyGet d "options" (.list []) with
      | .list os => decide (os.length ≤ letterIndex (pyGet d "answer" (.str "")))
      | _ => false
  | _ => false

theorem strAppend_merge (a b c r : String) (h : a ++ b = c) :
    a ++ (b ++ r) = c ++ r := by
  rw [← String.append_assoc, h]

theorem optionIssueStep_of_dup (k : Nat) (q : PyVal)
    (hsafe : qSafe q = true) (hdup : hasDuplicateOptions q = true) :
    ∃ r, optionIssueStep k q = .ok (some (("Question " ++ toString k ++ ":") ++ r)) := by
  cases q with
  | dict d =>
    rcases ho : pyDictGet? d "options" with _ | v
    · simp [hasDuplicateOptions, ho] at hdup
    · cases v with
      | list os =>
        have hl : os.length ≠ (dedupFirst os).length := by
          simp only [hasDuplicateOptions, ho, decide_eq_true_eq] at hdup
          exact hdup
        refine ⟨" has duplicate options: " ++
          pySetRepr (dedupFirst (os.filter (fun o => os.count o > 1))), ?_⟩
        simp only [optionIssueStep, ho, pyListToSet_ok os (qSafe_options hsafe ho),
          Bind.bind, PyResult.bind]
        rw [if_pos hl]
        simp only [String.append_assoc, Pure.pure]
      | str s2 => simp [hasDuplicateOptions, ho] at hdup
      | int n => simp [hasDuplicateOptions, ho] at hdup
      | bool b => simp [hasDuplicateOptions, ho] at hdup
      | none => simp [hasDuplicateOptions, ho] at hdup
      | dict d2 => simp [hasDuplicateOptions, ho] at hdup
  | str s2 => simp [hasDuplicateOptions] at hdup
  | int n => simp [hasDuplicateOptions] at hdup
  | bool b => simp [hasDuplicateOptions] at hdup
  | none => simp [hasDuplicateOptions] at hdup
  | list xs => simp [hasDuplicateOptions] at hdup

theorem answerIssueStep_of_viol (k : Nat) (q : PyVal)
    (hsafe : qSafe q = true) (hviol : answerViolates q = true) :
    ∃ r, answerIssueStep k q = .ok (some (("Question " ++ toString k ++ ":") ++ r)) := by
  cases q with
  | dict d =>
    have hh : pyHashable (pyGet d "answer" (.str "")) = true := by
      unfold pyGet
      rcases ha : pyDictGet? d "answer" with _ | a
      · rfl
      · simpa [ha] using qSafe_answer hsafe ha
    by_cases hv : validAnswer (pyGet d "answer" (.str "")) = true
    · cases hgo : pyGet d "options" (.list []) with
      | list os =>
        have hlen : os.length ≤ letterIndex (pyGet d "answer" (.str "")) := by
          simp only [answerViolates, hv, hgo, not_true, Bool.not_true, Bool.false_eq_true,
            if_false, decide_eq_true_eq] at hviol
          exact hviol
        refine ⟨" answer \x27" ++ pyStr (pyGet d "answer" (.str "")) ++
          "\x27 references option " ++ toString (letterIndex (pyGet d "answer" (.str "")) + 1) ++
          " but only " ++ toString os.length ++ " options exist", ?_⟩
        simp only [answerIssueStep, hh, hgo, hv, hlen, String.append_assoc, Bool.not_true,
          not_true, Bool.false_eq_true, if_false, if_pos hlen, ite_not, if_true]
      | str s2 => simp [answerViolates, hv, hgo] at hviol
      | int n => simp [answerViolates, hv, hgo] at hviol
      | bool b => simp [answerViolates, hv, hgo] at hviol
      | none => simp [answerViolates, hv, hgo] at hviol
      | dict d2 => simp [answerViolates, hv, hgo] at hviol
    · simp only [Bool.not_eq_true] at hv
      refine ⟨" answer \x27" ++ pyStr (pyGet d "answer" (.str "")) ++
        "\x27 is not A, B, C, or D", ?_⟩
      simp only [answerIssueStep, hh, hv, String.append_assoc, Bool.not_true, not_true,
        Bool.not_false, not_false_iff, Bool.false_eq_true, if_false, if_true, ite_not]
  | str s2 => simp [answerViolates] at hviol
  | int n => simp [answerViolates] at hviol
  | bool b => simp [answerViolates] at hviol
  | none => simp [answerViolates] at hviol
  | list xs => simp [answerViolates] at hviol

theorem optionsIssues_mem (qs : List PyVal) (k i : Nat) (h : i < qs.length)
    (hsafe : qs.all qSafe = true)
    (hdup : hasDuplicateOptions (qs.get ⟨i, h⟩) = true) :
    ∃ l r, optionsIssues k qs = .ok l ∧
      (("Question " ++ toString (k + i) ++ ":") ++ r) ∈ l := by
  induction qs generalizing k i with
  | nil => exact absurd h (Nat.not_lt_zero i)
  | cons q rest ih =>
    simp only [List.all_cons, Bool.and_eq_true] at hsafe
    cases i with
    | zero =>
      obtain ⟨r, hr⟩ := optionIssueStep_of_dup k q hsafe.1 hdup
      obtain ⟨l, hl⟩ := optionsIssues_ok rest (k + 1) hsafe.2
      refine ⟨(("Question " ++ toString k ++ ":") ++ r) :: l, r, ?_, ?_⟩
      · simp only [optionsIssues, hr, hl, Bind.bind, PyResult.bind]
        rfl
      · exact List.mem_cons_self _ _
    | succ j =>
      have hj : j < rest.length := Nat.lt_of_succ_lt_succ h
      have hdup2 : hasDuplicateOptions (rest.get ⟨j, hj⟩) = true := hdup
      obtain ⟨o, ho⟩ := optionIssueStep_ok k q hsafe.1
      obtain ⟨l, r, hl, hmem⟩ := ih (k + 1) j hj hsafe.2 hdup2
      have harith : k + 1 + j = k + (j + 1) := by omega
      rw [harith] at hmem
      cases o with
      | some s0 =>
        refine ⟨s0 :: l, r, ?_, List.mem_cons_of_mem _ hmem⟩
        simp only [optionsIssues, ho, hl, Bind.bind, PyResult.bind]
        rfl
      | none =>
        refine ⟨l, r, ?_, hmem⟩
        simp only [optionsIssues, ho, hl, Bind.bind, PyResult.bind]
        rfl

theorem answerIssues_mem (qs : List PyVal) (k i : Nat) (h : i < qs.length)
    (hsafe : qs.all qSafe = true)
    (hviol : answerViolates (qs.get ⟨i, h⟩) = true) :
    ∃ l r, answerIssues k qs = .ok l ∧
      (("Question " ++ toString (k + i) ++ ":") ++ r) ∈ l := by
  induction qs generalizing k i with
  | nil => exact absurd h (Nat.not_lt_zero i)
  | cons q rest ih =>
    simp only [List.all_cons, Bool.and_eq_true] at hsafe
    cases i with
    | zero =>
      obtain ⟨r, hr⟩ := answerIssueStep_of_viol k q hsafe.1 hviol
      obtain ⟨l, hl⟩ := answerIssues_ok rest (k + 1) hsafe.2
      refine ⟨(("Question " ++ toString k ++ ":") ++ r) :: l, r, ?_, ?_⟩
      · simp only [answerIssues, hr, hl, Bind.bind, PyResult.bind]
        rfl
      · exact List.mem_cons_self _ _
    | succ j =>
      have hj : j < rest.length := Nat.lt_of_succ_lt_succ h
      have hviol2 : answerViolates (rest.get ⟨j, hj⟩) = true := hviol
      obtain ⟨o, ho⟩ := answerIssueStep_ok k q hsafe.1
      obtain ⟨l, r, hl, hmem⟩ := ih (k + 1) j hj hsafe.2 hviol2
      have harith : k + 1 + j = k + (j + 1) := by omega
      rw [harith] at hmem
      cases o with
      | some s0 =>
        refine ⟨s0 :: l, r, ?_, List.mem_cons_of_mem _ hmem⟩
        simp only [answerIssues, ho, hl, Bind.bind, PyResult.bind]
        rfl
      | none =>
        refine ⟨l, r, ?_, hmem⟩
        simp only [answerIssues, ho, hl, Bind.bind, PyResult.bind]
        rfl

/-- C4: `options_are_unique` and `answer_is_valid` collect all violations
rather than short-circuiting.  Whenever question i violates the respective
rule (duplicate options / invalid answer), the single fail rationale
mentions "Question i:" — so when two distinct questions both violate, both
indices appear in the rationale. -/
theorem c4_collect_all :
    (∀ (qs : List PyVal) (i : Nat) (h : i < qs.length), qs.all qSafe = true →
      hasDuplicateOptions (qs.get ⟨i, h⟩) = true →
      ∃ fb, options_are_unique (.dict [("questions", .list qs)]) = .ok fb ∧
        fb.value = "no" ∧
        strMentions ("Question " ++ toString i ++ ":") fb.rationale = true) ∧
    (∀ (qs : List PyVal) (i : Nat) (h : i < qs.length), qs.all qSafe = true →
      answerViolates (qs.get ⟨i, h⟩) = true →
      ∃ fb, answer_is_valid (.dict [("questions", .list qs)]) = .ok fb ∧
        fb.value = "no" ∧
        strMentions ("Question " ++ toString i ++ ":") fb.rationale = true) := by
  constructor
  · intro qs i h hsafe hdup
    obtain ⟨l, r, hl, hmem⟩ := optionsIssues_mem qs 0 i h hsafe hdup
    rw [Nat.zero_add] at hmem
    have hred : options_are_unique (.dict [("questions", .list qs)]) =
        PyResult.bind (optionsIssues 0 qs) (fun issues =>
          if issues.isEmpty then
            PyResult.ok ⟨"yes", "All " ++ toString qs.length ++ " questions have unique options."⟩
          else
            PyResult.ok ⟨"no", "Found issues with option uniqueness: " ++ joinSep "; " issues⟩) := rfl
    rw [hred, hl]
    simp only [PyResult.bind]
    have hne : l.isEmpty = false := by
      cases l
      · cases hmem
      · rfl
    simp only [hne, Bool.false_eq_true, if_false]
    refine ⟨_, rfl, rfl, ?_⟩
    have hpre : prefixOfCL ("Question " ++ toString i ++ ":").data
        ((("Question " ++ toString i ++ ":") ++ r)).data = true := by
      rw [String.data_append]
      exact prefixOfCL_self_append _ _
    exact strMentions_joinSep "Found issues with option uniqueness: " "; " _ _ l hmem hpre
  · intro qs i h hsafe hviol
    obtain ⟨l, r, hl, hmem⟩ := answerIssues_mem qs 0 i h hsafe hviol
    rw [Nat.zero_add] at hmem
    have hred : answer_is_valid (.dict [("questions", .list qs)]) =
        PyResult.bind (answerIssues 0 qs) (fun issues =>
          if issues.isEmpty then
            PyResult.ok ⟨"yes", "All " ++ toString qs.length ++ " questions have valid answers."⟩
          else
            PyResult.ok ⟨"no", "Found invalid answers: " ++ joinSep "; " issues⟩) := rfl
    rw [hred, hl]
    simp only [PyResult.bind]
    have hne : l.isEmpty = false := by
      cases l
      · cases hmem
      · rfl
    simp only [hne, Bool.false_eq_true, if_false]
    refine ⟨_, rfl, rfl, ?_⟩
    have hpre : prefixOfCL ("Question " ++ toString i ++ ":").data
        ((("Question " ++ toString i ++ ":") ++ r)).data = true := by
      rw [String.data_append]
      exact prefixOfCL_self_append _ _
    exact strMentions_joinSep "Found invalid answers: " "; " _ _ l hmem hpre

/-- C4 witness: a 2-question set with duplicate options in each question,
and a 2-question set with an invalid answer in each question; in both
scorers the fail rationale mentions Question 0 and Question 1. -/
theorem c4_collect_all_witness :
    (([.dict [("options", .list [.str "a", .str "b", .str "a"])],
       .dict [("options", .list [.str "c", .str "c"])]] : List PyVal).all qSafe = true) ∧
    (∃ fb, options_are_unique (.dict [("questions", .list
        [.dict [("options", .list [.str "a", .str "b", .str "a"])],
         .dict [("options", .list [.str "c", .str "c"])]])]) = .ok fb ∧
      fb.value = "no" ∧
      strMentions ("Question " ++ toString 0 ++ ":") fb.rationale = true) ∧
    (∃ fb, options_are_unique (.dict [("questions", .list
        [.dict [("options", .list [.str "a", .str "b", .str "a"])],
         .dict [("options", .list [.str "c", .str "c"])]])]) = .ok fb ∧
      fb.value = "no" ∧
      strMentions ("Question " ++ toString 1 ++ ":") fb.rationale = true) ∧
    (∃ fb, answer_is_valid (.dict [("questions", .list [ansQ "E", ansQ "D"])]) = .ok fb ∧
      fb.value = "no" ∧
      strMentions ("Question " ++ toString 0 ++ ":") fb.rationale = true) ∧
    (∃ fb, answer_is_valid (.dict [("questions", .list [ansQ "E", ansQ "D"])]) = .ok fb ∧
      fb.value = "no" ∧
      strMentions ("Question " ++ toString 1 ++ ":") fb.rationale = true) := by
  refine ⟨rfl, ?_, ?_, ?_, ?_⟩
  · exact c4_collect_all.1
      [.dict [("options", .list [.str "a", .str "b", .str "a"])],
       .dict [("options", .list [.str "c", .str "c"])]] 0 (by simp) rfl rfl
  · exact c4_collect_all.1
      [.dict [("options", .list [.str "a", .str "b", .str "a"])],
       .dict [("options", .list [.str "c", .str "c"])]] 1 (by simp) rfl rfl
  · exact c4_collect_all.2 [ansQ "E", ansQ "D"] 0 (by simp) rfl rfl
  · exact c4_collect_all.2 [ansQ "E", ansQ "D"] 1 (by simp) rfl rfl
